import Mathlib

/-!
Verification of the tiered TTL cache layer of the filmzimmer TMDB client
(`tmdb-client` module).  The JavaScript source is embedded shallowly:

* JS JSON values become the inductive `Value`; the JS `null` is `Value.vnull`.
  The source conflates a cached `null` payload with a cache miss (both are the
  JS value `null`), and the embedding preserves that conflation faithfully.
* `Date.now()` readings are explicit `Nat` parameters (`now`, `t`, ...).
* The in-memory `Map` and `localStorage` are association lists with
  overwrite-on-set semantics (`aset`), lookup (`alook`) and delete (`adel`).
* A `localStorage` cell holds either a string that JSON-parses back to a cache
  entry (`StorageVal.good`) or a string on which `JSON.parse` throws
  (`StorageVal.malformed`); the string codec itself is abstracted by this
  round-trip, which is exact for JSON-serializable data.
* `setInLocalStorage` is deferred in the source via `setTimeout(..., 0)`;
  the embedding models it as a `PendingWrite` applied by `flushPendingWrite`
  at an explicit flush time, with a flag for a throwing `setItem`
  (quota exceeded), which the source catches and logs.
* Exceptions that escape a function are `Except.error`; the embedded
  functions return the values the source returns, plus the updated state and,
  where a claim needs it, an instrumentation count of `localStorage.getItem`
  invocations or a flag recording whether the network was touched.
-/

/-- A JSON value as handled by the client (decoded API payloads, cache data). -/
inductive Value where
  | vnull : Value
  | vbool : Bool → Value
  | vnum : Int → Value
  | vstr : String → Value
  | varr : List Value → Value
  | vobj : List (String × Value) → Value

/-- JS strict test `x === null` on a `Value`. -/
def Value.isNull : Value → Bool
  | .vnull => true
  | _ => false

/-- JS truthiness of a `Value` (as used by `||` in `fetchFromApi`). -/
def Value.truthy : Value → Bool
  | .vnull => false
  | .vbool b => b
  | .vnum n => n != 0
  | .vstr s => s != ""
  | .varr _ => true
  | .vobj _ => true

/-- JS string interpolation of a `Value` (template literals). -/
def Value.interp : Value → String
  | .vnull => "null"
  | .vbool b => if b then "true" else "false"
  | .vnum n => toString n
  | .vstr s => s
  | .varr _ => "[array]"
  | .vobj _ => "[object Object]"

/-- A cache entry: `{ data, timestamp, ttl }` as written by `setInMemoryCache`
and `setInLocalStorage`. -/
structure Entry where
  data : Value
  timestamp : Nat
  ttl : Nat

/-- A string stored in a `localStorage` cell, abstracted by what `JSON.parse`
does to it: either it decodes to a cache entry, or `JSON.parse` throws. -/
inductive StorageVal where
  | good : Entry → StorageVal
  | malformed : StorageVal

/-- Association-list lookup (first match), modelling `Map.get` /
`localStorage.getItem` (`none` = JS `undefined` / `null`). -/
def alook {α : Type} : List (String × α) → String → Option α
  | [], _ => none
  | kv :: rest, k => if kv.1 == k then some kv.2 else alook rest k

/-- Association-list overwrite-or-append, modelling `Map.set` /
`localStorage.setItem`. -/
def aset {α : Type} : List (String × α) → String → α → List (String × α)
  | [], k, v => [(k, v)]
  | kv :: rest, k, v => if kv.1 == k then (k, v) :: rest else kv :: aset rest k v

/-- Association-list removal, modelling `Map.delete` /
`localStorage.removeItem`. -/
def adel {α : Type} (l : List (String × α)) (k : String) : List (String × α) :=
  l.filter (fun kv => kv.1 != k)

/-- The `localStorage` namespace prefix `STORAGE_PREFIX` of the source. -/
def STORAGE_NS : String := "filmzimmer:tmdb:"

/-- The full state owned by the cache: the in-memory `Map` and the
`localStorage` contents. -/
structure CacheState where
  mem : List (String × Entry)
  store : List (String × StorageVal)

/-- `isCacheValid(entry)`: the entry object, its `timestamp` and its `ttl`
must all be truthy, and `Date.now() - entry.timestamp < entry.ttl`.  (For a
well-shaped entry, truthiness of the numeric fields means non-zero.) -/
def isCacheValid (now : Nat) (e : Entry) : Bool :=
  e.timestamp != 0 && e.ttl != 0 && decide (now - e.timestamp < e.ttl)

/-- `getFromMemoryCache(key)`: returns `entry.data` on a valid hit; deletes a
present-but-invalid entry; returns JS `null` otherwise.  Result: the returned
value and the updated memory map. -/
def getFromMemoryCache (now : Nat) (mem : List (String × Entry)) (key : String) :
    Value × List (String × Entry) :=
  match alook mem key with
  | none => (.vnull, mem)
  | some entry =>
      if isCacheValid now entry then (entry.data, mem)
      else (.vnull, adel mem key)

/-- `setInMemoryCache(key, data, ttl)`: stores `{data, timestamp: Date.now(), ttl}`. -/
def setInMemoryCache (now : Nat) (mem : List (String × Entry)) (key : String)
    (data : Value) (ttl : Nat) : List (String × Entry) :=
  aset mem key ⟨data, now, ttl⟩

/-- `getFromLocalStorage(key)`: reads `STORAGE_PREFIX + key`; a missing or
empty raw string is a miss; a raw string on which `JSON.parse` throws is
caught, logged and treated as a miss; a decoded entry is returned if valid,
else removed.  Result: the returned value and the updated store. -/
def getFromLocalStorage (now : Nat) (store : List (String × StorageVal)) (key : String) :
    Value × List (String × StorageVal) :=
  match alook store (STORAGE_NS ++ key) with
  | none => (.vnull, store)
  | some .malformed => (.vnull, store)
  | some (.good entry) =>
      if isCacheValid now entry then (entry.data, store)
      else (.vnull, adel store (STORAGE_NS ++ key))

/-- The body of the `setTimeout` callback of `setInLocalStorage(key, data, ttl)`,
run at clock reading `writeTime`: builds `{data, timestamp: Date.now(), ttl}`
and calls `localStorage.setItem`; a throwing `setItem` (`quotaFail`) is caught
and logged, leaving the store unchanged. -/
def setInLocalStorage (writeTime : Nat) (quotaFail : Bool)
    (store : List (String × StorageVal)) (key : String) (data : Value) (ttl : Nat) :
    List (String × StorageVal) :=
  if quotaFail then store
  else aset store (STORAGE_NS ++ key) (.good ⟨data, writeTime, ttl⟩)

/-- A storage write scheduled by `setInCache` via `setTimeout(..., 0)` but not
yet executed. -/
structure PendingWrite where
  key : String
  data : Value
  ttl : Nat

/-- `getFromCache(key)`: memory tier first; on a memory miss the persistent
tier; on a persistent hit, a second raw `localStorage.getItem` plus an
uncaught `JSON.parse` feed the promotion `setInMemoryCache(key, storageData,
entry.ttl)`.  Result: the returned value (or the escaping exception), the
updated state, and the number of `localStorage.getItem` invocations. -/
def getFromCache (now : Nat) (c : CacheState) (key : String) :
    Except String Value × CacheState × Nat :=
  let m := getFromMemoryCache now c.mem key
  if !m.1.isNull then (.ok m.1, ⟨m.2, c.store⟩, 0)
  else
    let s := getFromLocalStorage now c.store key
    if !s.1.isNull then
      match alook s.2 (STORAGE_NS ++ key) with
      | none => (.ok s.1, ⟨m.2, s.2⟩, 2)
      | some .malformed => (.error "SyntaxError", ⟨m.2, s.2⟩, 2)
      | some (.good entry) =>
          (.ok s.1, ⟨setInMemoryCache now m.2 key s.1 entry.ttl, s.2⟩, 2)
    else (.ok .vnull, ⟨m.2, s.2⟩, 1)

/-- `setInCache(key, data, ttl)`: synchronous `setInMemoryCache` plus a
deferred `setInLocalStorage`, returned as a `PendingWrite`. -/
def setInCache (now : Nat) (c : CacheState) (key : String) (data : Value) (ttl : Nat) :
    CacheState × PendingWrite :=
  (⟨setInMemoryCache now c.mem key data ttl, c.store⟩, ⟨key, data, ttl⟩)

/-- Executes a `PendingWrite` at clock reading `writeTime` (the moment the
`setTimeout` callback of `setInLocalStorage` fires). -/
def flushPendingWrite (writeTime : Nat) (quotaFail : Bool) (c : CacheState)
    (pw : PendingWrite) : CacheState :=
  ⟨c.mem, setInLocalStorage writeTime quotaFail c.store pw.key pw.data pw.ttl⟩

/-- `clearAllCache(memoryOnly)`: `memoryCache.clear()`; unless `memoryOnly`,
collect every `localStorage` key starting with `STORAGE_PREFIX` and remove
them. -/
def clearAllCache (memoryOnly : Bool) (c : CacheState) : CacheState :=
  if memoryOnly then ⟨[], c.store⟩
  else
    let keysToRemove := (c.store.map Prod.fst).filter (fun k => k.startsWith STORAGE_NS)
    ⟨[], c.store.filter (fun kv => !keysToRemove.contains kv.1)⟩

/-- An argument to `createCacheKey(...parts)`: a JS string, number, boolean,
`null` or `undefined` component. -/
inductive JSComp where
  | cundef : JSComp
  | cnull : JSComp
  | cstr : String → JSComp
  | cnum : Int → JSComp
  | cbool : Bool → JSComp

/-- JS truthiness of a key component, as tested by `parts.filter(Boolean)`. -/
def JSComp.truthy : JSComp → Bool
  | .cundef => false
  | .cnull => false
  | .cstr s => s != ""
  | .cnum n => n != 0
  | .cbool b => b

/-- The string `Array.prototype.join` uses for a component. -/
def JSComp.asString : JSComp → String
  | .cundef => ""
  | .cnull => ""
  | .cstr s => s
  | .cnum n => toString n
  | .cbool b => if b then "true" else "false"

/-- `Array.prototype.join(':')` on a list of already-stringified parts. -/
def joinColon : List String → String
  | [] => ""
  | [s] => s
  | s :: rest => s ++ ":" ++ joinColon rest

/-- `createCacheKey = (...parts) => parts.filter(Boolean).join(':')`. -/
def createCacheKey (parts : List JSComp) : String :=
  joinColon ((parts.filter JSComp.truthy).map JSComp.asString)

/-- An HTTP response as observed by `fetchFromApi`: its status code and the
outcome of `response.json()` (`Except.error` = the body is not valid JSON). -/
structure HttpResponse where
  status : Nat
  bodyJson : Except Unit Value

/-- `response.ok`: status in the inclusive range 200..299. -/
def respOk (r : HttpResponse) : Bool :=
  200 ≤ r.status && r.status ≤ 299

/-- JS property access `obj.name`: accessing a property of `null` throws a
TypeError; on any other value it yields the property's value, or undefined
(`none`) when the property is absent (the non-object JSON values carry no
`status_message` property). -/
def getField (v : Value) (name : String) : Except String (Option Value) :=
  match v with
  | .vnull => .error "TypeError"
  | .vobj fields => alook fields name |> .ok
  | _ => .ok none

/-- The `status_message` field the decoded error body supplies, if any:
`some m` when the body is an object with that field; `none` when the body is
unparseable, not an object, or lacks the field. -/
def statusMessageField (r : HttpResponse) : Option Value :=
  match r.bodyJson with
  | .ok (.vobj fields) => alook fields "status_message"
  | _ => none

/-- `fetchFromApi` after `await fetch(url)` resolved with `r`: a 2xx response
returns `response.json()` (an invalid body rejects with the parse error); a
non-2xx response reads the body with `.catch(() => ({}))`, accesses
`errorBody.status_message` (which throws a TypeError when the body decoded to
the JSON literal `null`), takes `status_message || 'HTTP ' + status` and
throws `Error('[TMDB API Error] ' + message)`. -/
def fetchFromApi (r : HttpResponse) : Except String Value :=
  if respOk r then
    match r.bodyJson with
    | .ok v => .ok v
    | .error _ => .error "SyntaxError"
  else
    let errorBody := match r.bodyJson with
      | .ok v => v
      | .error _ => .vobj []
    match getField errorBody "status_message" with
    | .error e => .error e
    | .ok mv =>
        let message := match mv with
          | some v => if v.truthy then v.interp else "HTTP " ++ toString r.status
          | none => "HTTP " ++ toString r.status
        .error ("[TMDB API Error] " ++ message)

/-- The whole network side of one `fetchFromApi(url)` call: either
`await fetch(url)` rejects with a transport error, or it resolves with an
`HttpResponse` that `fetchFromApi` then inspects. -/
def fetchFromApiNet (net : Except String HttpResponse) : Except String Value :=
  match net with
  | .error e => .error e
  | .ok r => fetchFromApi r

/-- `fetchWithCache(cacheKey, endpoint, params, ttl)`: `getFromCache` first
(an escaping exception rejects the promise before any network activity); a
non-`null` cached value is returned with no network call; otherwise the
network is invoked and, only on success, `setInCache` runs.  Result: the
settled value, the cache state, the scheduled storage write if any, and
whether the network was invoked. -/
def fetchWithCache (now : Nat) (c : CacheState) (key : String)
    (net : Except String HttpResponse) (ttl : Nat) :
    Except String Value × CacheState × Option PendingWrite × Bool :=
  match getFromCache now c key with
  | (.error e, c', _) => (.error e, c', none, false)
  | (.ok cachedData, c', _) =>
      if !cachedData.isNull then (.ok cachedData, c', none, false)
      else
        match fetchFromApiNet net with
        | .error e => (.error e, c', none, true)
        | .ok data =>
            let sc := setInCache now c' key data ttl
            (.ok data, sc.1, some sc.2, true)

/-! ## Association-list lemmas -/

theorem alook_aset_self {α : Type} (l : List (String × α)) (k : String) (v : α) :
    alook (aset l k v) k = some v := by
  induction l with
  | nil => simp [aset, alook]
  | cons kv rest ih =>
      by_cases h : kv.1 == k
      · simp [aset, h, alook]
      · simp [aset, h, alook, ih]

theorem alook_adel_self {α : Type} (l : List (String × α)) (k : String) :
    alook (adel l k) k = none := by
  induction l with
  | nil => simp [adel, alook]
  | cons kv rest ih =>
      simp only [adel, List.filter_cons] at ih ⊢
      by_cases h : kv.1 == k
      · have hb : (kv.1 != k) = false := by simp [bne_iff_ne]; simpa using h
        simp [hb, ih]
      · have hb : (kv.1 != k) = true := by simp [bne_iff_ne]; simpa using h
        simp [hb, alook, h, ih]

/-! ## Claim C1 -/

/-- The cache state for the C1 counterexample: an older, still-valid
persistent-tier entry for key `k` holding `"old"`. -/
def freshnessNullState : CacheState :=
  ⟨[], [("filmzimmer:tmdb:k", .good ⟨.vstr "old", 5, 100⟩)]⟩

/-- Claim C1, counterexample: with a `null` payload the claim fails.  After
`setInCache("k", null, 50)` at time 10 over a state whose persistent tier
still holds a valid entry with data `"old"`, `getFromCache("k")` at time 10
returns `"old"`, not the freshly written `null` payload. -/
theorem freshness_null_shadowed_cex :
    (getFromCache 10 (setInCache 10 freshnessNullState "k" .vnull 50).1 "k").1
      = .ok (.vstr "old")
    ∧ (getFromCache 10 (setInCache 10 freshnessNullState "k" .vnull 50).1 "k").1
      ≠ .ok .vnull := by
  refine ⟨rfl, ?_⟩
  have h1 : (getFromCache 10 (setInCache 10 freshnessNullState "k" .vnull 50).1 "k").1
      = .ok (.vstr "old") := rfl
  rw [h1]
  intro h
  injection h with h2
  exact Value.noConfusion h2

/-- Claim C1 (amended): for every non-`null` JSON payload, every `ttl > 0`
and every positive clock reading, `setInCache(key, data, ttl)` followed by
`getFromCache(key)` with no intervening clock advance returns `data`, from
any prior cache state. -/
theorem freshness_set_then_get (now ttl : Nat) (key : String) (data : Value)
    (c : CacheState) (hn : 0 < now) (ht : 0 < ttl) (hd : data.isNull = false) :
    (getFromCache now (setInCache now c key data ttl).1 key).1 = .ok data := by
  have hv : isCacheValid now ⟨data, now, ttl⟩ = true := by
    simp only [isCacheValid, bne_iff_ne, decide_eq_true_eq, Bool.and_eq_true]
    omega
  simp [getFromCache, setInCache, setInMemoryCache, getFromMemoryCache,
    alook_aset_self, hv, hd]

/-- Witness for the amended claim C1 at a concrete input. -/
theorem freshness_set_then_get_witness :
    (getFromCache 7 (setInCache 7 ⟨[], []⟩ "k" (.vstr "x") 5).1 "k").1
      = .ok (.vstr "x") :=
  freshness_set_then_get 7 5 "k" (.vstr "x") ⟨[], []⟩ (by decide) (by decide) rfl

/-! ## Claim C2 -/

/-- Claim C2: an entry written by `setInCache` at time `t` (with its deferred
persistent write executed at time `tw`) is absent from `getFromCache` at any
time `g` at least `ttl` past both writes, and the lookup removes the entry
from both tiers. -/
theorem expiry_get_after_ttl (t tw g ttl : Nat) (key : String) (data : Value)
    (c : CacheState) (h1 : t ≤ tw) (h2 : tw + ttl ≤ g) :
    (getFromCache g (flushPendingWrite tw false (setInCache t c key data ttl).1
        (setInCache t c key data ttl).2) key).1 = .ok .vnull
    ∧ alook (getFromCache g (flushPendingWrite tw false (setInCache t c key data ttl).1
        (setInCache t c key data ttl).2) key).2.1.mem key = none
    ∧ alook (getFromCache g (flushPendingWrite tw false (setInCache t c key data ttl).1
        (setInCache t c key data ttl).2) key).2.1.store (STORAGE_NS ++ key) = none := by
  have hv1 : isCacheValid g ⟨data, t, ttl⟩ = false := by
    have hlt : ¬(g - t < ttl) := by omega
    simp [isCacheValid, hlt]
  have hv2 : isCacheValid g ⟨data, tw, ttl⟩ = false := by
    have hlt : ¬(g - tw < ttl) := by omega
    simp [isCacheValid, hlt]
  simp [getFromCache, getFromMemoryCache, getFromLocalStorage, setInCache,
    setInMemoryCache, setInLocalStorage, flushPendingWrite, alook_aset_self,
    hv1, hv2, alook_adel_self, Value.isNull]

/-- Witness for claim C2 at a concrete input. -/
theorem expiry_get_after_ttl_witness :
    (getFromCache 11 (flushPendingWrite 1 false
        (setInCache 1 ⟨[], []⟩ "k" (.vstr "x") 10).1
        (setInCache 1 ⟨[], []⟩ "k" (.vstr "x") 10).2) "k").1 = .ok .vnull
    ∧ alook (getFromCache 11 (flushPendingWrite 1 false
        (setInCache 1 ⟨[], []⟩ "k" (.vstr "x") 10).1
        (setInCache 1 ⟨[], []⟩ "k" (.vstr "x") 10).2) "k").2.1.mem "k" = none
    ∧ alook (getFromCache 11 (flushPendingWrite 1 false
        (setInCache 1 ⟨[], []⟩ "k" (.vstr "x") 10).1
        (setInCache 1 ⟨[], []⟩ "k" (.vstr "x") 10).2) "k").2.1.store
        (STORAGE_NS ++ "k") = none :=
  expiry_get_after_ttl 1 1 11 10 "k" (.vstr "x") ⟨[], []⟩ (by decide) (by decide)

/-! ## Claim C3 -/

/-- The cache state for the C3 counterexample: a persistent-tier-only entry
for key `k`, stored at time 1 with `ttl` 10, hence stale from time 11 on. -/
def promotionState : CacheState :=
  ⟨[], [("filmzimmer:tmdb:k", .good ⟨.vstr "x", 1, 10⟩)]⟩

/-- Claim C3, counterexample: promotion does not preserve the persistent
entry's staleness instant.  The persistent entry (stored at 1, `ttl` 10)
becomes stale at 11, but promoting it at time 5 writes a memory entry with
timestamp 5 and the full original `ttl`, and a `getFromCache` at time 12
still returns the data even though the persistent entry would already be
stale then. -/
theorem promotion_resets_clock_cex :
    alook (getFromCache 5 promotionState "k").2.1.mem "k"
      = some ⟨.vstr "x", 5, 10⟩
    ∧ (getFromCache 12 (getFromCache 5 promotionState "k").2.1 "k").1
      = .ok (.vstr "x")
    ∧ isCacheValid 12 ⟨.vstr "x", 1, 10⟩ = false :=
  ⟨rfl, rfl, rfl⟩

/-- Claim C3 (amended): when `getFromCache` finds no usable memory-tier entry
but a valid persistent-tier entry, it returns that entry's data and promotes
it into the memory tier with a fresh timestamp (the promotion time) and the
entry's original full `ttl` — so the promoted entry becomes stale `ttl`
milliseconds after the promotion, at or after (not at) the instant the
persistent-tier entry would have become stale. -/
theorem promotion_fresh_timestamp (now : Nat) (key : String) (e : Entry)
    (c : CacheState)
    (hmem : (getFromMemoryCache now c.mem key).1 = .vnull)
    (hst : alook c.store (STORAGE_NS ++ key) = some (.good e))
    (hv : isCacheValid now e = true)
    (hd : e.data.isNull = false) :
    getFromCache now c key =
      (.ok e.data,
       ⟨aset (getFromMemoryCache now c.mem key).2 key ⟨e.data, now, e.ttl⟩,
        c.store⟩,
       2) := by
  simp [getFromCache, getFromLocalStorage, setInMemoryCache, hmem, hst, hv,
    hd, show Value.isNull .vnull = true from rfl]

/-- Witness for the amended claim C3 at a concrete input. -/
theorem promotion_fresh_timestamp_witness :
    getFromCache 5 promotionState "k" =
      (.ok (.vstr "x"),
       ⟨aset (getFromMemoryCache 5 promotionState.mem "k").2 "k" ⟨.vstr "x", 5, 10⟩,
        promotionState.store⟩,
       2) :=
  promotion_fresh_timestamp 5 "k" ⟨.vstr "x", 1, 10⟩ promotionState rfl rfl rfl rfl

/-! ## Claim C4 -/

/-- The cache state for the C4 counterexample: a valid persistent-tier-only
entry, so that `getFromCache` takes the promotion path. -/
def readCountState : CacheState :=
  ⟨[], [("filmzimmer:tmdb:k", .good ⟨.vstr "x", 1, 10⟩)]⟩

/-- Claim C4, counterexample: on the persistent-tier promotion path
`getFromCache` invokes `localStorage.getItem` twice (once inside
`getFromLocalStorage` and once more for the raw re-read feeding the
promotion), exceeding the claimed bound of at most one read. -/
theorem read_cost_two_reads_cex :
    (getFromCache 5 readCountState "k").2.2 = 2
    ∧ ¬((getFromCache 5 readCountState "k").2.2 ≤ 1) :=
  ⟨rfl, by decide⟩

/-- Claim C4 (amended): every `getFromCache` call performs no network call
(the lookup is a function of the local cache state only) and at most two
persistent-storage reads; the second read occurs only on the promotion
path. -/
theorem read_cost_at_most_two (now : Nat) (c : CacheState) (key : String) :
    (getFromCache now c key).2.2 ≤ 2 := by
  unfold getFromCache
  dsimp only
  split
  · simp
  · split
    · split <;> simp
    · simp

/-! ## Claim C5 -/

theorem Value.isNull_true_iff (v : Value) : v.isNull = true ↔ v = .vnull := by
  cases v <;> simp [Value.isNull]

/-- A memory-tier lookup that returned JS `null` keeps returning `null` when
repeated on the state it produced. -/
theorem getFromMemoryCache_null_stable (now : Nat) (mem : List (String × Entry))
    (key : String) (h : (getFromMemoryCache now mem key).1 = .vnull) :
    (getFromMemoryCache now (getFromMemoryCache now mem key).2 key).1 = .vnull := by
  cases halook : alook mem key with
  | none =>
      have hstate : (getFromMemoryCache now mem key).2 = mem := by
        simp [getFromMemoryCache, halook]
      rw [hstate]
      simp [getFromMemoryCache, halook]
  | some e =>
      by_cases hv : isCacheValid now e
      · have hstate : (getFromMemoryCache now mem key).2 = mem := by
          simp [getFromMemoryCache, halook, hv]
        have hdata : e.data = .vnull := by
          simpa [getFromMemoryCache, halook, hv] using h
        rw [hstate]
        simp [getFromMemoryCache, halook, hv, hdata]
      · have hstate : (getFromMemoryCache now mem key).2 = adel mem key := by
          simp [getFromMemoryCache, halook, hv]
        rw [hstate]
        simp [getFromMemoryCache, alook_adel_self]

/-- A persistent-tier lookup that returned JS `null` keeps returning `null`
when repeated on the state it produced. -/
theorem getFromLocalStorage_null_stable (now : Nat)
    (store : List (String × StorageVal)) (key : String)
    (h : (getFromLocalStorage now store key).1 = .vnull) :
    (getFromLocalStorage now (getFromLocalStorage now store key).2 key).1
      = .vnull := by
  cases halook : alook store (STORAGE_NS ++ key) with
  | none =>
      have hstate : (getFromLocalStorage now store key).2 = store := by
        simp [getFromLocalStorage, halook]
      rw [hstate]
      simp [getFromLocalStorage, halook]
  | some sv =>
      cases sv with
      | malformed =>
          have hstate : (getFromLocalStorage now store key).2 = store := by
            simp [getFromLocalStorage, halook]
          rw [hstate]
          simp [getFromLocalStorage, halook]
      | good e =>
          by_cases hv : isCacheValid now e
          · have hstate : (getFromLocalStorage now store key).2 = store := by
              simp [getFromLocalStorage, halook, hv]
            have hdata : e.data = .vnull := by
              simpa [getFromLocalStorage, halook, hv] using h
            rw [hstate]
            simp [getFromLocalStorage, halook, hv, hdata]
          · have hstate : (getFromLocalStorage now store key).2
                = adel store (STORAGE_NS ++ key) := by
              simp [getFromLocalStorage, halook, hv]
            rw [hstate]
            simp [getFromLocalStorage, alook_adel_self]

/-- If `getFromCache` returned JS `null`, both tier lookups returned `null`
and the resulting state is exactly the two tiers' post-lookup states. -/
theorem getFromCache_null_decomp (now : Nat) (c : CacheState) (key : String)
    (h : (getFromCache now c key).1 = .ok .vnull) :
    (getFromMemoryCache now c.mem key).1 = .vnull
    ∧ (getFromLocalStorage now c.store key).1 = .vnull
    ∧ (getFromCache now c key).2.1
        = ⟨(getFromMemoryCache now c.mem key).2,
           (getFromLocalStorage now c.store key).2⟩ := by
  by_cases hm : (getFromMemoryCache now c.mem key).1.isNull = true
  · by_cases hs : (getFromLocalStorage now c.store key).1.isNull = true
    · refine ⟨(Value.isNull_true_iff _).mp hm, (Value.isNull_true_iff _).mp hs, ?_⟩
      unfold getFromCache
      simp [hm, hs]
    · exfalso
      unfold getFromCache at h
      simp only [hm, Bool.not_true, Bool.false_eq_true, if_false] at h
      have hs' : (getFromLocalStorage now c.store key).1.isNull = false :=
        Bool.not_eq_true _ ▸ Bool.of_not_eq_true hs
      simp only [hs', Bool.not_false, if_true] at h
      cases halook : alook (getFromLocalStorage now c.store key).2
          (STORAGE_NS ++ key) with
      | none =>
          rw [halook] at h
          simp only [Except.ok.injEq] at h
          rw [h] at hs'
          simp [Value.isNull] at hs'
      | some sv =>
          cases sv with
          | malformed =>
              rw [halook] at h
              exact Except.noConfusion h
          | good e =>
              rw [halook] at h
              simp only [Except.ok.injEq] at h
              rw [h] at hs'
              simp [Value.isNull] at hs'
  · exfalso
    unfold getFromCache at h
    have hm' : (getFromMemoryCache now c.mem key).1.isNull = false :=
      Bool.not_eq_true _ ▸ Bool.of_not_eq_true hm
    simp only [hm', Bool.not_false, if_true, Except.ok.injEq] at h
    rw [h] at hm'
    simp [Value.isNull] at hm'

/-- A `getFromCache` miss is repeatable: the miss returns `null` again on the
state the first miss produced. -/
theorem getFromCache_null_stable (now : Nat) (c : CacheState) (key : String)
    (h : (getFromCache now c key).1 = .ok .vnull) :
    (getFromCache now (getFromCache now c key).2.1 key).1 = .ok .vnull := by
  obtain ⟨hm, hs, hstate⟩ := getFromCache_null_decomp now c key h
  rw [hstate]
  have hm2 := getFromMemoryCache_null_stable now c.mem key hm
  have hs2 := getFromLocalStorage_null_stable now c.store key hs
  unfold getFromCache
  simp [hm2, hs2, Value.isNull]

/-- Claim C5: if the cache misses and the underlying load rejects,
`fetchWithCache` rejects with that same error unmodified, the cache state
stays exactly the post-lookup state with no entry written and no persistent
write scheduled, and a subsequent `getFromCache` still returns absent. -/
theorem no_caching_of_failures (now ttl : Nat) (key : String) (c : CacheState)
    (e : String) (hmiss : (getFromCache now c key).1 = .ok .vnull) :
    fetchWithCache now c key (.error e) ttl
      = (.error e, (getFromCache now c key).2.1, none, true)
    ∧ (getFromCache now (getFromCache now c key).2.1 key).1 = .ok .vnull := by
  refine ⟨?_, getFromCache_null_stable now c key hmiss⟩
  have hexp : getFromCache now c key
      = (Except.ok Value.vnull, (getFromCache now c key).2.1,
         (getFromCache now c key).2.2) := by
    rw [← hmiss]
  unfold fetchWithCache
  rw [hexp]
  simp [fetchFromApiNet, Value.isNull]

/-- Witness for claim C5 at a concrete input. -/
theorem no_caching_of_failures_witness :
    fetchWithCache 1 ⟨[], []⟩ "k" (.error "offline") 5
      = (.error "offline", (getFromCache 1 ⟨[], []⟩ "k").2.1, none, true)
    ∧ (getFromCache 1 (getFromCache 1 ⟨[], []⟩ "k").2.1 "k").1 = .ok .vnull :=
  no_caching_of_failures 1 5 "k" ⟨[], []⟩ "offline" rfl

/-! ## Claim C6 -/

theorem strDataInj (a b : String) (h : a.data = b.data) : a = b := by
  cases a
  cases b
  simp only at h
  rw [h]

/-- If two colon-free character lists are each followed by a colon and a
tail, and the concatenations agree, the lists and the tails agree. -/
theorem splitAtColon_unique (x1 : List Char) :
    ∀ (x2 r1 r2 : List Char), ':' ∉ x1 → ':' ∉ x2 →
      x1 ++ ':' :: r1 = x2 ++ ':' :: r2 → x1 = x2 ∧ r1 = r2 := by
  induction x1 with
  | nil =>
      intro x2 r1 r2 h1 h2 he
      cases x2 with
      | nil => simpa using he
      | cons d ds =>
          exfalso
          simp only [List.nil_append, List.cons_append, List.cons.injEq] at he
          exact h2 (he.1 ▸ List.mem_cons_self d ds)
  | cons c cs ih =>
      intro x2 r1 r2 h1 h2 he
      cases x2 with
      | nil =>
          exfalso
          simp only [List.cons_append, List.nil_append, List.cons.injEq] at he
          exact h1 (he.1 ▸ List.mem_cons_self c cs)
      | cons d ds =>
          simp only [List.cons_append, List.cons.injEq] at he
          have h1' : ':' ∉ cs := fun hm => h1 (List.mem_cons_of_mem _ hm)
          have h2' : ':' ∉ ds := fun hm => h2 (List.mem_cons_of_mem _ hm)
          obtain ⟨hx, hr⟩ := ih ds r1 r2 h1' h2' he.2
          exact ⟨by rw [he.1, hx], hr⟩

theorem joinColon_data_cons_cons (s t : String) (rest : List String) :
    (joinColon (s :: t :: rest)).data
      = s.data ++ ':' :: (joinColon (t :: rest)).data := by
  rw [show joinColon (s :: t :: rest) = s ++ ":" ++ joinColon (t :: rest) from rfl,
      String.data_append, String.data_append]
  simp

/-- `joinColon` is injective on lists of nonempty, colon-free strings. -/
theorem joinColon_inj (xs : List String) :
    ∀ (ys : List String),
      (∀ s ∈ xs, s ≠ "" ∧ ':' ∉ s.data) → (∀ s ∈ ys, s ≠ "" ∧ ':' ∉ s.data) →
      joinColon xs = joinColon ys → xs = ys := by
  induction xs with
  | nil =>
      intro ys hxs hys he
      cases ys with
      | nil => rfl
      | cons y ytail =>
          exfalso
          cases ytail with
          | nil => exact (hys y (List.mem_cons_self y [])).1 he.symm
          | cons y2 yrest =>
              have hd := congrArg String.data he
              rw [joinColon_data_cons_cons] at hd
              simp [joinColon] at hd
  | cons x xtail ih =>
      intro ys hxs hys he
      cases ys with
      | nil =>
          exfalso
          cases xtail with
          | nil => exact (hxs x (List.mem_cons_self x [])).1 he
          | cons x2 xrest =>
              have hd := congrArg String.data he
              rw [joinColon_data_cons_cons] at hd
              simp [joinColon] at hd
      | cons y ytail =>
          cases xtail with
          | nil =>
              cases ytail with
              | nil =>
                  rw [show joinColon [x] = x from rfl,
                      show joinColon [y] = y from rfl] at he
                  rw [he]
              | cons y2 yrest =>
                  exfalso
                  have hd := congrArg String.data he
                  rw [show joinColon [x] = x from rfl,
                      joinColon_data_cons_cons] at hd
                  have hc : ':' ∈ x.data := by
                    rw [hd]
                    exact List.mem_append_right _ (List.mem_cons_self _ _)
                  exact (hxs x (List.mem_cons_self _ _)).2 hc
          | cons x2 xrest =>
              cases ytail with
              | nil =>
                  exfalso
                  have hd := congrArg String.data he
                  rw [joinColon_data_cons_cons,
                      show joinColon [y] = y from rfl] at hd
                  have hc : ':' ∈ y.data := by
                    rw [← hd]
                    exact List.mem_append_right _ (List.mem_cons_self _ _)
                  exact (hys y (List.mem_cons_self _ _)).2 hc
              | cons y2 yrest =>
                  have hd := congrArg String.data he
                  rw [joinColon_data_cons_cons, joinColon_data_cons_cons] at hd
                  obtain ⟨hxy, hrest⟩ := splitAtColon_unique x.data y.data _ _
                    (hxs x (List.mem_cons_self _ _)).2
                    (hys y (List.mem_cons_self _ _)).2 hd
                  have hx : x = y := strDataInj _ _ hxy
                  have hj : joinColon (x2 :: xrest) = joinColon (y2 :: yrest) :=
                    strDataInj _ _ hrest
                  have htail := ih (y2 :: yrest)
                    (fun s hs => hxs s (List.mem_cons_of_mem _ hs))
                    (fun s hs => hys s (List.mem_cons_of_mem _ hs)) hj
                  rw [hx, htail]

/-- On lists of nonempty string components, `createCacheKey` is plain
colon-joining: nothing is filtered and nothing is re-stringified. -/
theorem createCacheKey_strs (xs : List String) (h : ∀ s ∈ xs, s ≠ "") :
    createCacheKey (xs.map .cstr) = joinColon xs := by
  unfold createCacheKey
  have hfilter : (xs.map JSComp.cstr).filter JSComp.truthy = xs.map JSComp.cstr := by
    apply List.filter_eq_self.mpr
    intro a ha
    obtain ⟨s, hs, rfl⟩ := List.mem_map.mp ha
    simp only [JSComp.truthy, bne_iff_ne, ne_eq, decide_not]
    simpa using h s hs
  rw [hfilter, List.map_map]
  rw [show JSComp.asString ∘ JSComp.cstr = id from rfl, List.map_id]

/-- Claim C6, counterexample: `createCacheKey` does not skip exactly the
undefined and null components (a present numeric `0` is skipped too), and
two component lists that differ in present component values can collide
(components containing the delimiter). -/
theorem cache_key_collision_cex :
    createCacheKey [.cstr "a", .cstr "b:c"] = createCacheKey [.cstr "a:b", .cstr "c"]
    ∧ [JSComp.cstr "a", .cstr "b:c"] ≠ [JSComp.cstr "a:b", .cstr "c"]
    ∧ createCacheKey [.cstr "movie", .cnum 0, .cstr "credits"]
        = createCacheKey [.cstr "movie", .cstr "credits"] := by
  refine ⟨rfl, ?_, rfl⟩
  intro h
  have h2 : JSComp.cstr "a" = JSComp.cstr "a:b" := (List.cons.inj h).1
  have h3 : "a" = "a:b" := JSComp.cstr.inj h2
  have h4 := congrArg String.data h3
  simp at h4

/-- Claim C6 (amended): `createCacheKey` is a deterministic function of its
ordered component list that skips exactly the falsy components (undefined,
null, the empty string, zero, false); two calls supplying the same present
components in the same order yield the same key, and on lists of nonempty
delimiter-free string components, distinct lists yield distinct keys.  (In
general, distinct lists can collide: a component containing the `:` delimiter
or a falsy-but-present component can make two logically distinct lists
produce the same key.) -/
theorem cache_key_amended :
    (∀ parts : List JSComp,
        createCacheKey parts = createCacheKey (parts.filter JSComp.truthy))
    ∧ (∀ xs ys : List String,
        (∀ s ∈ xs, s ≠ "" ∧ ':' ∉ s.data) →
        (∀ s ∈ ys, s ≠ "" ∧ ':' ∉ s.data) →
        createCacheKey (xs.map .cstr) = createCacheKey (ys.map .cstr) →
        xs = ys) := by
  constructor
  · intro parts
    unfold createCacheKey
    rw [List.filter_filter]
    simp
  · intro xs ys hxs hys he
    rw [createCacheKey_strs xs (fun s hs => (hxs s hs).1),
        createCacheKey_strs ys (fun s hs => (hys s hs).1)] at he
    exact joinColon_inj xs ys hxs hys he

/-- Witness for the amended claim C6 at concrete inputs: the skip
characterization at a concrete list, and distinctness of two concrete keys
derived from the injectivity half. -/
theorem cache_key_amended_witness :
    createCacheKey [JSComp.cstr "movie", .cnull, .cstr "550"]
      = createCacheKey ([JSComp.cstr "movie", .cnull, .cstr "550"].filter JSComp.truthy)
    ∧ createCacheKey [JSComp.cstr "movie", .cstr "550"]
      ≠ createCacheKey [JSComp.cstr "movie", .cstr "551"] := by
  have h := cache_key_amended
  refine ⟨h.1 [JSComp.cstr "movie", .cnull, .cstr "550"], fun he => ?_⟩
  have hlists := h.2 ["movie", "550"] ["movie", "551"] (by decide) (by decide) he
  exact absurd hlists (by decide)

/-! ## Claim C7 -/

/-- Claim C7: `clearAllCache(memoryOnly)` always empties the memory tier;
with `memoryOnly` it leaves the persistent store untouched, and without it
the surviving persistent entries are exactly those whose key does not start
with the namespace `filmzimmer:tmdb:`, each kept with its key and value
unchanged. -/
theorem clearAll_frame (memoryOnly : Bool) (c : CacheState) :
    (clearAllCache memoryOnly c).mem = []
    ∧ (memoryOnly = true → (clearAllCache memoryOnly c).store = c.store)
    ∧ (memoryOnly = false → ∀ (k : String) (v : StorageVal),
        ((k, v) ∈ (clearAllCache memoryOnly c).store ↔
         (k, v) ∈ c.store ∧ k.startsWith STORAGE_NS = false)) := by
  cases memoryOnly with
  | true =>
      refine ⟨rfl, fun _ => rfl, fun h => absurd h (by simp)⟩
  | false =>
      refine ⟨rfl, fun h => absurd h (by simp), fun _ k v => ?_⟩
      have hck : ∀ (hin : (k, v) ∈ c.store),
          ((c.store.map Prod.fst).filter
            (fun s => s.startsWith STORAGE_NS)).contains k
          = k.startsWith STORAGE_NS := by
        intro hin
        cases hsw : k.startsWith STORAGE_NS with
        | true =>
            have hmemk : k ∈ (c.store.map Prod.fst).filter
                (fun s => s.startsWith STORAGE_NS) :=
              List.mem_filter.mpr ⟨List.mem_map_of_mem Prod.fst hin, hsw⟩
            exact List.elem_eq_true_of_mem hmemk
        | false =>
            cases hcont : ((c.store.map Prod.fst).filter
                (fun s => s.startsWith STORAGE_NS)).contains k with
            | false => rfl
            | true =>
                exfalso
                have hk := List.mem_filter.mp (List.mem_of_elem_eq_true hcont)
                rw [hsw] at hk
                exact Bool.false_ne_true hk.2
      unfold clearAllCache
      simp only [if_neg (by simp : ¬(false = true)), List.mem_filter]
      constructor
      · rintro ⟨hin, hcond⟩
        refine ⟨hin, ?_⟩
        have hcond' : (!((c.store.map Prod.fst).filter
            (fun s => s.startsWith STORAGE_NS)).contains k) = true := hcond
        rw [hck hin] at hcond'
        simpa using hcond'
      · rintro ⟨hin, hns⟩
        refine ⟨hin, ?_⟩
        show (!((c.store.map Prod.fst).filter
            (fun s => s.startsWith STORAGE_NS)).contains k) = true
        rw [hck hin, hns]
        rfl

/-- The cache state for the C7 witness: a namespaced persistent entry next to
the unrelated favourites entry. -/
def clearDemoState : CacheState :=
  ⟨[("k", ⟨.vstr "x", 1, 10⟩)],
   [("filmzimmer:tmdb:a", .malformed),
    ("filmzimmer:favourites", .good ⟨.vstr "fav", 1, 10⟩)]⟩

/-- Witness for claim C7 at a concrete input: the favourites entry survives a
full clear with key and value unchanged. -/
theorem clearAll_frame_witness :
    (clearAllCache false clearDemoState).mem = []
    ∧ (("filmzimmer:favourites", StorageVal.good ⟨.vstr "fav", 1, 10⟩)
          ∈ (clearAllCache false clearDemoState).store
       ↔ ("filmzimmer:favourites", StorageVal.good ⟨.vstr "fav", 1, 10⟩)
          ∈ clearDemoState.store
         ∧ ("filmzimmer:favourites").startsWith STORAGE_NS = false) := by
  have h := clearAll_frame false clearDemoState
  exact ⟨h.1, h.2.2 rfl "filmzimmer:favourites" (.good ⟨.vstr "fav", 1, 10⟩)⟩

/-! ## Claim C8 -/

/-- Claim C8: caching-layer failures are absorbed.  A persistent-tier string
that fails to JSON-parse makes `getFromCache` return absent without throwing
(given the memory tier also missed), and a throwing persistent-tier write
leaves `setInCache` returning normally with the memory tier holding the new
entry and the store unchanged. -/
theorem cache_failures_absorbed (now tw ttl : Nat) (key : String) (data : Value)
    (c : CacheState) :
    (alook c.store (STORAGE_NS ++ key) = some .malformed →
      (getFromMemoryCache now c.mem key).1 = .vnull →
      (getFromCache now c key).1 = .ok .vnull)
    ∧ (alook (flushPendingWrite tw true (setInCache now c key data ttl).1
          (setInCache now c key data ttl).2).mem key = some ⟨data, now, ttl⟩
       ∧ (flushPendingWrite tw true (setInCache now c key data ttl).1
          (setInCache now c key data ttl).2).store = c.store) := by
  refine ⟨fun hmal hmem => ?_, ?_, rfl⟩
  · simp [getFromCache, getFromLocalStorage, hmal, hmem,
      show Value.isNull .vnull = true from rfl]
  · simp [flushPendingWrite, setInCache, setInMemoryCache, setInLocalStorage,
      alook_aset_self]

/-- The cache state for the C8 witness: a malformed persistent string under
the namespaced key. -/
def malformedState : CacheState :=
  ⟨[], [("filmzimmer:tmdb:k", .malformed)]⟩

/-- Witness for claim C8 at a concrete input. -/
theorem cache_failures_absorbed_witness :
    (getFromCache 3 malformedState "k").1 = .ok .vnull
    ∧ alook (flushPendingWrite 3 true
        (setInCache 3 malformedState "k" (.vstr "x") 5).1
        (setInCache 3 malformedState "k" (.vstr "x") 5).2).mem "k"
        = some ⟨.vstr "x", 3, 5⟩
    ∧ (flushPendingWrite 3 true
        (setInCache 3 malformedState "k" (.vstr "x") 5).1
        (setInCache 3 malformedState "k" (.vstr "x") 5).2).store
        = malformedState.store := by
  have h := cache_failures_absorbed 3 3 5 "k" (.vstr "x") malformedState
  exact ⟨h.1 rfl rfl, h.2.1, h.2.2⟩

/-! ## Claim C9 -/

/-- Claim C9, counterexample: a non-2xx response whose body is the JSON
literal `null` supplies no `status_message`, so the claim demands an error
carrying the numeric HTTP status; but `errorBody.status_message` throws a
TypeError on the `null` body, and `fetchFromApi` rejects with that TypeError,
whose message contains no digit of the status at all. -/
theorem api_error_null_body_cex :
    fetchFromApi ⟨404, .ok .vnull⟩ = .error "TypeError"
    ∧ statusMessageField ⟨404, .ok .vnull⟩ = none
    ∧ ¬ '4' ∈ ("TypeError").data
    ∧ fetchFromApi ⟨404, .ok .vnull⟩
        ≠ .error ("[TMDB API Error] " ++ ("HTTP " ++ toString (404 : Nat))) := by
  refine ⟨rfl, rfl, by decide, ?_⟩
  have h1 : fetchFromApi ⟨404, .ok .vnull⟩ = .error "TypeError" := rfl
  rw [h1]
  intro h
  injection h with h2
  have h3 := congrArg String.data h2
  simp [String.data_append] at h3

/-- Claim C9 (amended): for every non-2xx response, `fetchFromApi` never
resolves with data.  When the decoded body is not the JSON literal `null`,
it rejects with an error whose message carries the server-provided
`status_message` when the body supplies a non-empty one, and the numeric
HTTP status otherwise; when the body decodes to `null`, the property access
`errorBody.status_message` itself throws, and `fetchFromApi` rejects with
that TypeError instead. -/
theorem api_error_conversion (r : HttpResponse) (hok : respOk r = false) :
    (∀ v, fetchFromApi r ≠ .ok v)
    ∧ (∀ m : String, m ≠ "" → statusMessageField r = some (.vstr m) →
        fetchFromApi r = .error ("[TMDB API Error] " ++ m))
    ∧ (r.bodyJson ≠ .ok .vnull → statusMessageField r = none →
        fetchFromApi r = .error ("[TMDB API Error] " ++ ("HTTP " ++ toString r.status)))
    ∧ (r.bodyJson = .ok .vnull → fetchFromApi r = .error "TypeError") := by
  refine ⟨?_, ?_, ?_, ?_⟩
  · intro v h
    revert h
    cases hb : r.bodyJson with
    | ok w =>
        cases w <;> simp [fetchFromApi, hok, hb, getField]
    | error u => simp [fetchFromApi, hok, hb, getField]
  · intro m hm hsf
    cases hb : r.bodyJson with
    | ok w =>
        cases w with
        | vobj fields =>
            simp only [statusMessageField, hb] at hsf
            simp [fetchFromApi, hok, hb, getField, hsf, Value.truthy,
              Value.interp, hm]
        | vnull => simp [statusMessageField, hb] at hsf
        | vbool b => simp [statusMessageField, hb] at hsf
        | vnum n => simp [statusMessageField, hb] at hsf
        | vstr s => simp [statusMessageField, hb] at hsf
        | varr xs => simp [statusMessageField, hb] at hsf
    | error u =>
        simp [statusMessageField, hb] at hsf
  · intro hnn hsf
    cases hb : r.bodyJson with
    | ok w =>
        cases w with
        | vnull => exact absurd hb hnn
        | vobj fields =>
            simp only [statusMessageField, hb] at hsf
            simp [fetchFromApi, hok, hb, getField, hsf]
        | vbool b => simp [fetchFromApi, hok, hb, getField]
        | vnum n => simp [fetchFromApi, hok, hb, getField]
        | vstr s => simp [fetchFromApi, hok, hb, getField]
        | varr xs => simp [fetchFromApi, hok, hb, getField]
    | error u =>
        simp [fetchFromApi, hok, hb, getField, alook]
  · intro hb0
    simp [fetchFromApi, hok, hb0, getField]

/-- Witness for the amended claim C9 at concrete inputs: a 404 with a server
message, a 404 with an unparseable body, and a 500 whose body is the JSON
literal `null`. -/
theorem api_error_conversion_witness :
    fetchFromApi ⟨404, .ok (.vobj [("status_message", .vstr "not found")])⟩
      = .error ("[TMDB API Error] " ++ "not found")
    ∧ fetchFromApi ⟨404, .error ()⟩
      = .error ("[TMDB API Error] " ++ ("HTTP " ++ toString (404 : Nat)))
    ∧ fetchFromApi ⟨500, .ok .vnull⟩ = .error "TypeError" := by
  have h1 := api_error_conversion
    ⟨404, .ok (.vobj [("status_message", .vstr "not found")])⟩ rfl
  have h2 := api_error_conversion ⟨404, .error ()⟩ rfl
  have h3 := api_error_conversion ⟨500, .ok .vnull⟩ rfl
  exact ⟨h1.2.1 "not found" (by decide) rfl, h2.2.2.1 (by simp) rfl,
    h3.2.2.2 rfl⟩

/-! ## Claim C10 -/

/-- Claim C10: a cached `null` payload is indistinguishable from a miss.
After `setInCache(key, null, ttl)` (with its deferred persistent write
executed), `getFromCache(key)` returns absent even while the entry is still
valid, and `fetchWithCache` for that key invokes the network load again. -/
theorem null_payload_is_miss (t tw g ttl : Nat) (key : String) (c : CacheState)
    (net : Except String HttpResponse)
    (ht : 0 < t) (h1 : t ≤ tw) (h2 : tw ≤ g) (hv : g < t + ttl) :
    (getFromCache g (flushPendingWrite tw false
        (setInCache t c key .vnull ttl).1 (setInCache t c key .vnull ttl).2)
        key).1 = .ok .vnull
    ∧ (fetchWithCache g (flushPendingWrite tw false
        (setInCache t c key .vnull ttl).1 (setInCache t c key .vnull ttl).2)
        key net ttl).2.2.2 = true := by
  have hv1 : isCacheValid g ⟨Value.vnull, t, ttl⟩ = true := by
    simp only [isCacheValid, bne_iff_ne, decide_eq_true_eq, Bool.and_eq_true]
    omega
  have hv2 : isCacheValid g ⟨Value.vnull, tw, ttl⟩ = true := by
    simp only [isCacheValid, bne_iff_ne, decide_eq_true_eq, Bool.and_eq_true]
    omega
  have hget : (getFromCache g (flushPendingWrite tw false
      (setInCache t c key .vnull ttl).1 (setInCache t c key .vnull ttl).2)
      key).1 = .ok .vnull := by
    simp [getFromCache, getFromMemoryCache, getFromLocalStorage, setInCache,
      setInMemoryCache, setInLocalStorage, flushPendingWrite, alook_aset_self,
      hv1, hv2, Value.isNull]
  refine ⟨hget, ?_⟩
  have hexp : getFromCache g (flushPendingWrite tw false
      (setInCache t c key .vnull ttl).1 (setInCache t c key .vnull ttl).2) key
      = (Except.ok Value.vnull,
         (getFromCache g (flushPendingWrite tw false
            (setInCache t c key .vnull ttl).1 (setInCache t c key .vnull ttl).2)
            key).2.1,
         (getFromCache g (flushPendingWrite tw false
            (setInCache t c key .vnull ttl).1 (setInCache t c key .vnull ttl).2)
            key).2.2) := by
    rw [← hget]
  unfold fetchWithCache
  rw [hexp]
  cases hnet : fetchFromApiNet net <;> simp [Value.isNull, hnet]

/-- Witness for claim C10 at a concrete input. -/
theorem null_payload_is_miss_witness :
    (getFromCache 3 (flushPendingWrite 2 false
        (setInCache 1 ⟨[], []⟩ "k" .vnull 10).1
        (setInCache 1 ⟨[], []⟩ "k" .vnull 10).2) "k").1 = .ok .vnull
    ∧ (fetchWithCache 3 (flushPendingWrite 2 false
        (setInCache 1 ⟨[], []⟩ "k" .vnull 10).1
        (setInCache 1 ⟨[], []⟩ "k" .vnull 10).2) "k"
        (.ok ⟨200, .ok (.vstr "fresh")⟩) 10).2.2.2 = true :=
  null_payload_is_miss 1 2 3 10 "k" ⟨[], []⟩ (.ok ⟨200, .ok (.vstr "fresh")⟩)
    (by decide) (by decide) (by decide) (by decide)
